import Mathlib

/-!
A shallow embedding of the sysmonitor agent's core subsystems, translated
from the C++ sources:

  * src/src/core/alert_manager.cpp      (alert evaluator state machine)
  * src/src/storage/metrics_storage.cpp (time-series store: batch, flush, query)
  * src/src/core/network_publisher.cpp  (publisher transport and statistics)

Machine doubles are modelled as rationals, int64 timestamps as Int, and the
SQLite metrics table as an association list with replace-on-identity
semantics (INSERT OR REPLACE).  Wall-clock reads are passed in explicitly.
-/

namespace Sysmon

/-! ### Alert evaluator (src/src/core/alert_manager.cpp) -/

/-- Comparator of a rule; mirrors enum class AlertCondition in alert_config.hpp. -/
inductive AlertCondition
  | ABOVE
  | BELOW
  | EQUALS
deriving DecidableEq

/-- Per-rule state; mirrors enum class AlertState in alert_manager.hpp. -/
inductive AlertState
  | NORMAL
  | BREACHED
  | FIRING
  | COOLDOWN
deriving DecidableEq

/-- The fields of struct AlertRule (alert_config.hpp) that the evaluator reads. -/
structure AlertRule where
  name : String
  metric : String
  condition : AlertCondition
  threshold : Rat
  duration_seconds : Int
deriving DecidableEq

/-- Mirrors struct AlertInstance (alert_manager.hpp); time points are seconds. -/
structure AlertInstance where
  state : AlertState
  breach_start : Int
  last_fired : Int
  current_value : Rat
deriving DecidableEq

/-- A fresh map entry in alert_states_ is value-initialized: NORMAL state,
epoch time points, zero value. -/
def defaultInstance : AlertInstance :=
  { state := AlertState.NORMAL, breach_start := 0, last_fired := 0, current_value := 0 }

/-- The threshold test of AlertManager::CheckAlert (the switch on
rule.condition); EQUALS compares with absolute tolerance 0.001. -/
def thresholdBreached : AlertCondition → Rat → Rat → Bool
  | AlertCondition.ABOVE, v, th => decide (th < v)
  | AlertCondition.BELOW, v, th => decide (v < th)
  | AlertCondition.EQUALS, v, th => decide (|v - th| < 1 / 1000)

/-- AlertManager::IsInCooldown: only FIRING and COOLDOWN instances can be in
cooldown, and then only while now - last_fired < cooldown. -/
def IsInCooldown (cooldown : Int) (now : Int) (inst : AlertInstance) : Bool :=
  if inst.state ≠ AlertState.FIRING ∧ inst.state ≠ AlertState.COOLDOWN then
    false
  else
    decide (now - inst.last_fired < cooldown)

/-- AlertManager::CheckAlert for one rule and one observed value at wall-clock
time now.  Returns the updated instance and whether FireAlert was invoked.
The C++ first records the observed value, then early-returns when the
instance is in cooldown, then walks the NORMAL / BREACHED branches. -/
def CheckAlert (cooldown : Int) (rule : AlertRule) (now : Int)
    (inst0 : AlertInstance) (current_value : Rat) : AlertInstance × Bool :=
  let inst := { inst0 with current_value := current_value }
  if IsInCooldown cooldown now inst then
    (inst, false)
  else if thresholdBreached rule.condition current_value rule.threshold then
    if inst.state = AlertState.NORMAL then
      ({ inst with state := AlertState.BREACHED, breach_start := now }, false)
    else if inst.state = AlertState.BREACHED then
      if rule.duration_seconds ≤ now - inst.breach_start then
        ({ inst with state := AlertState.FIRING, last_fired := now }, true)
      else
        (inst, false)
    else
      (inst, false)
  else
    if inst.state ≠ AlertState.NORMAL then
      ({ inst with state := AlertState.NORMAL }, false)
    else
      (inst, false)

/-- One evaluation of a rule inside EvaluationLoop: the observation time and
value, the instance before and after, and whether a fire event was emitted. -/
structure EvalStep where
  time : Int
  value : Rat
  pre : AlertInstance
  post : AlertInstance
  fired : Bool
deriving DecidableEq

/-- The evaluation history of one rule: CheckAlert applied to each observed
(time, value) pair in order, threading the instance. -/
def runSteps (cooldown : Int) (rule : AlertRule) (inst : AlertInstance) :
    List (Int × Rat) → List EvalStep
  | [] => []
  | (t, v) :: rest =>
    let r := CheckAlert cooldown rule t inst v
    { time := t, value := v, pre := inst, post := r.1, fired := r.2 } ::
      runSteps cooldown rule r.1 rest

/-- Times at which fire events are emitted along a run started at inst. -/
def fireTimesFrom (cooldown : Int) (rule : AlertRule) (inst : AlertInstance)
    (trace : List (Int × Rat)) : List Int :=
  ((runSteps cooldown rule inst trace).filter (fun s => s.fired)).map (fun s => s.time)

/-- Fire times of a rule evaluated from the fresh (process-start) instance. -/
def fireTimes (cooldown : Int) (rule : AlertRule) (trace : List (Int × Rat)) : List Int :=
  fireTimesFrom cooldown rule defaultInstance trace

/-! ### Time-series store (src/src/storage/metrics_storage.cpp) -/

/-- Mirrors struct StoredMetric (metrics_storage.hpp). -/
structure StoredMetric where
  timestamp : Int
  metric_type : String
  host : String
  tags : String
  value : Rat
deriving DecidableEq

/-- The fields of struct StorageConfig that the batch discipline reads. -/
structure StorageConfig where
  batch_size : Nat
  flush_interval_ms : Int
deriving DecidableEq

/-- MetricsStorage::MAX_BUFFER_SIZE (metrics_storage.hpp). -/
def MAX_BUFFER_SIZE : Nat := 10000

/-- The primary key of the metrics table: (timestamp, metric_type, host, tags). -/
def identityOf (m : StoredMetric) : Int × String × String × String :=
  (m.timestamp, m.metric_type, m.host, m.tags)

/-- One row insertion of the prepared INSERT OR REPLACE statement: a row with
the same primary key is replaced in place, otherwise the row is appended. -/
def upsert (m : StoredMetric) : List StoredMetric → List StoredMetric
  | [] => [m]
  | x :: xs => if identityOf x = identityOf m then m :: xs else x :: upsert m xs

/-- The mutable state of a MetricsStorage handle: the committed table, the
in-memory batch, and the time of the last successful flush (milliseconds). -/
structure StoreState where
  db : List StoredMetric
  batch : List StoredMetric
  lastFlushMs : Int
deriving DecidableEq

/-- A freshly opened store: empty table, empty batch. -/
def initState : StoreState :=
  { db := [], batch := [], lastFlushMs := 0 }

/-- MetricsStorage::FlushBatch.  ok abstracts whether the SQLite transaction
(BEGIN, every step, COMMIT) succeeds; on failure ROLLBACK leaves the table
unchanged and the batch is retained.  An empty batch is a successful no-op. -/
def FlushBatch (st : StoreState) (nowMs : Int) (ok : Bool) : StoreState × Bool :=
  if st.batch.isEmpty then
    (st, true)
  else if ok then
    ({ db := st.batch.foldl (fun d m => upsert m d) st.db, batch := [],
       lastFlushMs := nowMs }, true)
  else
    (st, false)

/-- MetricsStorage::AddToBatch at wall-clock time nowMs (milliseconds).
Refuses without mutating when the batch already holds MAX_BUFFER_SIZE points;
otherwise appends and auto-flushes when the batch size or the flush interval
threshold is reached. -/
def AddToBatch (cfg : StorageConfig) (st : StoreState) (m : StoredMetric)
    (nowMs : Int) (ok : Bool) : StoreState × Bool :=
  if MAX_BUFFER_SIZE ≤ st.batch.length then
    (st, false)
  else
    let st1 := { st with batch := st.batch ++ [m] }
    if cfg.batch_size ≤ st1.batch.length ∨ cfg.flush_interval_ms ≤ nowMs - st.lastFlushMs then
      FlushBatch st1 nowMs ok
    else
      (st1, true)

/-- MetricsStorage::Flush: takes the batch lock and flushes. -/
def Flush (st : StoreState) (nowMs : Int) (ok : Bool) : StoreState × Bool :=
  FlushBatch st nowMs ok

/-- Insertion into a list kept newest-first by timestamp. -/
def insertByTsDesc (m : StoredMetric) : List StoredMetric → List StoredMetric
  | [] => [m]
  | x :: xs => if x.timestamp ≤ m.timestamp then m :: x :: xs else x :: insertByTsDesc m xs

/-- ORDER BY timestamp DESC over a row list. -/
def sortByTsDesc : List StoredMetric → List StoredMetric
  | [] => []
  | x :: xs => insertByTsDesc x (sortByTsDesc xs)

/-- MetricsStorage::QueryRange: SELECT ... WHERE metric_type = ? AND
timestamp BETWEEN ? AND ? ORDER BY timestamp DESC, with LIMIT appended only
when the int argument limit is positive.  Reads the committed table only. -/
def QueryRange (db : List StoredMetric) (metric_type : String)
    (start_ts end_ts : Int) (limit : Int) : List StoredMetric :=
  let filtered := db.filter fun r =>
    decide (r.metric_type = metric_type) &&
    decide (start_ts ≤ r.timestamp) && decide (r.timestamp ≤ end_ts)
  let sorted := sortByTsDesc filtered
  if 0 < limit then sorted.take limit.toNat else sorted

/-- The public write operations expand a snapshot into sample points and feed
them to AddToBatch one by one, conjoining the per-point results (the source's
pattern success &= AddToBatch(...)). -/
def writeMetrics (cfg : StorageConfig) (st : StoreState) (points : List StoredMetric)
    (nowMs : Int) (ok : Bool) : StoreState × Bool :=
  points.foldl
    (fun acc m =>
      let r := AddToBatch cfg acc.1 m nowMs ok
      (r.1, acc.2 && r.2))
    (st, true)

/-- A write_X call (its expanded point list, the wall clock at the call, and
the transaction oracle for any flush it triggers), interleaved with explicit
Flush calls. -/
inductive StoreOp
  | write (points : List StoredMetric) (nowMs : Int) (ok : Bool)
  | flush (nowMs : Int) (ok : Bool)
deriving DecidableEq

/-- State transition of one store operation. -/
def applyOp (cfg : StorageConfig) (st : StoreState) : StoreOp → StoreState
  | StoreOp.write points nowMs ok => (writeMetrics cfg st points nowMs ok).1
  | StoreOp.flush nowMs ok => (Flush st nowMs ok).1

/-- Running a legal interleaving of writes and flushes. -/
def runOps (cfg : StorageConfig) (st : StoreState) (ops : List StoreOp) : StoreState :=
  ops.foldl (applyOp cfg) st

/-- All sample points appended by a list of store operations, in order. -/
def writtenPoints : List StoreOp → List StoredMetric
  | [] => []
  | StoreOp.write points _ _ :: rest => points ++ writtenPoints rest
  | StoreOp.flush _ _ :: rest => writtenPoints rest

/-! ### Process metric persistence (MetricsStorage::WriteProcessMetrics) -/

/-- The fields of struct ProcessInfo (platform_interface.hpp) that
WriteProcessMetrics reads. -/
structure ProcessInfo where
  pid : Nat
  name : String
  cpu_percent : Rat
  memory_bytes : Nat
  num_threads : Nat
deriving DecidableEq

/-- The per-tick cap on persisted processes (local MAX_PROCESSES constant). -/
def MAX_PROCESSES : Nat := 20

/-- The tags string built for one process row. -/
def procTags (p : ProcessInfo) : String :=
  "\x7b\"pid\":" ++ toString p.pid ++ ",\"name\":\"" ++ p.name ++ "\"\x7d"

/-- The three sample points stored for one process. -/
def procEntry (ts : Int) (host : String) (p : ProcessInfo) : List StoredMetric :=
  [ { timestamp := ts, metric_type := "process.cpu_percent", host := host,
      tags := procTags p, value := p.cpu_percent },
    { timestamp := ts, metric_type := "process.memory_bytes", host := host,
      tags := procTags p, value := (p.memory_bytes : Rat) },
    { timestamp := ts, metric_type := "process.num_threads", host := host,
      tags := procTags p, value := (p.num_threads : Rat) } ]

/-- The loop of WriteProcessMetrics: walk the given process list in order and
break as soon as the running count reaches MAX_PROCESSES. -/
def processLoopPoints (ts : Int) (host : String) (count : Nat) :
    List ProcessInfo → List StoredMetric
  | [] => []
  | p :: rest =>
    if MAX_PROCESSES ≤ count then []
    else procEntry ts host p ++ processLoopPoints ts host (count + 1) rest

/-- All points appended by WriteProcessMetrics: the capped per-process points
followed by the process.count point. -/
def processPoints (ts : Int) (host : String) (processes : List ProcessInfo) :
    List StoredMetric :=
  processLoopPoints ts host 0 processes ++
    [ { timestamp := ts, metric_type := "process.count", host := host,
        tags := "", value := (processes.length : Rat) } ]

/-- MetricsStorage::WriteProcessMetrics. -/
def WriteProcessMetrics (cfg : StorageConfig) (st : StoreState) (ts : Int)
    (host : String) (processes : List ProcessInfo) (nowMs : Int) (ok : Bool) :
    StoreState × Bool :=
  writeMetrics cfg st (processPoints ts host processes) nowMs ok

/-! ### Schema versioning (MetricsStorage constructor and InitializeSchema) -/

/-- Models MetricsStorage::InitializeSchema: reads the recorded schema version
with GetSchemaVersion (0 when the table is absent) and applies migration 1
when the recorded version is below 1.  There is no check against versions
above the code's own; the returned list is the migrations executed. -/
def applySchemaMigrations (recorded : Int) : List Nat :=
  if recorded < 1 then [1] else []

/-- Outcome of the MetricsStorage constructor. -/
inductive OpenResult
  | ok (migrationsApplied : List Nat)
  | openFailure
deriving DecidableEq

/-- Models the MetricsStorage constructor: sqlite3_open_v2 can fail (bad path,
permissions), after which InitializeSchema runs its migrations; no step
compares the recorded version against the code's schema version. -/
def MetricsStorageOpen (pathOk : Bool) (recorded : Int) : OpenResult :=
  if pathOk then OpenResult.ok (applySchemaMigrations recorded)
  else OpenResult.openFailure

/-! ### Network publisher (src/src/core/network_publisher.cpp) -/

/-- What the blocking transport produced: an early failure (bad URL scheme,
resolve / connect / send / recv errors all return false before any status
check) or the first bytes of the HTTP response. -/
inductive TransportOutcome
  | invalidScheme
  | connectError
  | sendError
  | recvError
  | response (bytes : List Char)
deriving DecidableEq

/-- Substring test: the model of std::string::find(pat) != npos. -/
def hasSub (pat : List Char) : List Char → Bool
  | [] => pat.isEmpty
  | c :: rest => pat.isPrefixOf (c :: rest) || hasSub pat rest

/-- NetworkPublisher::SendHTTPRequest's verdict on one attempt: every
transport failure is false, and a received response succeeds exactly when it
contains the literal "200 OK" (response.find("200 OK") != npos). -/
def SendHTTPRequest : TransportOutcome → Bool
  | TransportOutcome.response bytes => hasSub ("200 OK".toList) bytes
  | _ => false

/-- Mirrors NetworkPublisher::Stats (network_publisher.hpp). -/
structure Stats where
  metrics_queued : Nat
  metrics_sent : Nat
  metrics_failed : Nat
  publish_attempts : Nat
  publish_successes : Nat
  publish_failures : Nat
  queue_overflows : Nat
deriving DecidableEq

/-- NetworkPublisher::PublishBatch: counts the attempt, then a success or a
failure (a failure counts toward the caller's retry loop). -/
def PublishBatch (stats : Stats) (batchSize : Nat) (outcome : TransportOutcome) :
    Stats × Bool :=
  let stats1 := { stats with publish_attempts := stats.publish_attempts + 1 }
  if SendHTTPRequest outcome then
    ({ stats1 with
        publish_successes := stats1.publish_successes + 1
        metrics_sent := stats1.metrics_sent + batchSize }, true)
  else
    ({ stats1 with publish_failures := stats1.publish_failures + 1 }, false)

/-- The status check the specification prescribes for a response: status code
in the half-open interval from 200 to 300. -/
def specStatusSuccess (status : Nat) : Prop :=
  200 ≤ status ∧ status < 300

/-- The status line an aggregator reply with the given code and reason phrase
starts with. -/
def statusLineFor (status : Nat) (reason : String) : List Char :=
  ("HTTP/1.1 " ++ toString status ++ " " ++ reason).toList

/-! ### Auxiliary predicates and concrete inputs used by the theorems -/

/-- Invariant carried through a run: whenever the instance sits in NORMAL or
BREACHED, at least the cooldown has passed between its recorded last_fired
and every upcoming evaluation time (bounded below by t0). -/
def cooldownSafe (cd : Int) (inst : AlertInstance) (t0 : Int) : Prop :=
  (inst.state = AlertState.NORMAL ∨ inst.state = AlertState.BREACHED) →
    inst.last_fired + cd ≤ t0

/-- Rule of spec scenario S2: cpu.total_usage ABOVE 80 with hold 2 s. -/
def ruleAbove80hold2 : AlertRule :=
  { name := "high_cpu", metric := "cpu.total_usage",
    condition := AlertCondition.ABOVE, threshold := 80, duration_seconds := 2 }

/-- The same rule with hold 0. -/
def ruleAbove80hold0 : AlertRule :=
  { ruleAbove80hold2 with duration_seconds := 0 }

/-- The instance after the S2 run has entered BREACHED at time 0. -/
def instB : AlertInstance :=
  { state := AlertState.BREACHED, breach_start := 0, last_fired := 0, current_value := 90 }

/-- First evaluation of scenario S2: value 90 at t = 0 moves NORMAL to BREACHED. -/
def stepB0 : EvalStep :=
  { time := 0, value := 90, pre := defaultInstance, post := instB, fired := false }

/-- Second evaluation of scenario S2: still BREACHED, hold not yet met. -/
def stepB1 : EvalStep :=
  { time := 1, value := 90, pre := instB, post := instB, fired := false }

/-- Third evaluation of scenario S2: hold met, the fire event is emitted. -/
def stepFire : EvalStep :=
  { time := 2, value := 90,
    pre := instB,
    post := { state := AlertState.FIRING, breach_start := 0, last_fired := 2,
              current_value := 90 },
    fired := true }

/-- A FIRING instance one second after its fire event. -/
def firingInst : AlertInstance :=
  { state := AlertState.FIRING, breach_start := 100, last_fired := 101,
    current_value := 90 }

/-- Twenty-one processes whose CPU usage grows along the list, so the single
process with the greatest CPU share is the last one (pid 20). -/
def procs21 : List ProcessInfo :=
  (List.range 21).map fun i =>
    { pid := i, name := "p" ++ toString i, cpu_percent := (i : Rat),
      memory_bytes := 1000, num_threads := 1 }

/-- The table the store would hold if the pending batch were committed now:
the batch rows upserted, in order, on top of the committed table. -/
def committed (st : StoreState) : List StoredMetric :=
  st.batch.foldl (fun d m => upsert m d) st.db

/-- Row order produced by ORDER BY timestamp DESC: later rows are no newer. -/
def newestFirst (a b : StoredMetric) : Prop :=
  b.timestamp ≤ a.timestamp

/-- The default storage configuration (batch_size 100, flush interval 5 s). -/
def cfgDefault : StorageConfig :=
  { batch_size := 100, flush_interval_ms := 5000 }

/-- A configuration whose batch size 1 makes every append auto-flush. -/
def cfgBatch1 : StorageConfig :=
  { batch_size := 1, flush_interval_ms := 5000 }

/-- A concrete sample point. -/
def samplePoint : StoredMetric :=
  { timestamp := 0, metric_type := "cpu.total_usage", host := "h", tags := "",
    value := 42 }

/-- A second sample point, one second later. -/
def samplePoint1 : StoredMetric :=
  { timestamp := 1, metric_type := "cpu.total_usage", host := "h", tags := "",
    value := 43 }

/-- A store whose batch already holds MAX_BUFFER_SIZE points. -/
def fullBatchState : StoreState :=
  { db := [], batch := List.replicate MAX_BUFFER_SIZE samplePoint, lastFlushMs := 0 }

/-- Fresh publisher statistics, all counters zero. -/
def stats0 : Stats :=
  { metrics_queued := 0, metrics_sent := 0, metrics_failed := 0,
    publish_attempts := 0, publish_successes := 0, publish_failures := 0,
    queue_overflows := 0 }

/-! ### Lemmas about one CheckAlert evaluation -/

theorem CheckAlert_fired {cd : Int} {rule : AlertRule} {now : Int}
    {inst : AlertInstance} {v : Rat}
    (h : (CheckAlert cd rule now inst v).2 = true) :
    inst.state = AlertState.BREACHED ∧
    rule.duration_seconds ≤ now - inst.breach_start ∧
    thresholdBreached rule.condition v rule.threshold = true ∧
    (CheckAlert cd rule now inst v).1 =
      { inst with state := AlertState.FIRING, last_fired := now, current_value := v } := by
  by_cases hb : thresholdBreached rule.condition v rule.threshold = true
  all_goals by_cases hd : rule.duration_seconds ≤ now - inst.breach_start
  all_goals by_cases hc : now - inst.last_fired < cd
  all_goals cases hstate : inst.state
  all_goals simp_all [CheckAlert, IsInCooldown, hstate]

theorem CheckAlert_post_breached {cd : Int} {rule : AlertRule} {now : Int}
    {inst : AlertInstance} {v : Rat}
    (h : (CheckAlert cd rule now inst v).1.state = AlertState.BREACHED) :
    thresholdBreached rule.condition v rule.threshold = true ∧
    ((inst.state = AlertState.NORMAL ∧
        (CheckAlert cd rule now inst v).1.breach_start = now) ∨
      (inst.state = AlertState.BREACHED ∧
        (CheckAlert cd rule now inst v).1.breach_start = inst.breach_start)) := by
  by_cases hb : thresholdBreached rule.condition v rule.threshold = true
  all_goals by_cases hd : rule.duration_seconds ≤ now - inst.breach_start
  all_goals by_cases hc : now - inst.last_fired < cd
  all_goals cases hstate : inst.state
  all_goals simp_all [CheckAlert, IsInCooldown, hstate]
  all_goals split <;> simp_all

theorem CheckAlert_not_fired_spec {cd : Int} {rule : AlertRule} {now : Int}
    {inst : AlertInstance} {v : Rat}
    (h : (CheckAlert cd rule now inst v).2 = false) :
    (CheckAlert cd rule now inst v).1.last_fired = inst.last_fired ∧
    (((CheckAlert cd rule now inst v).1.state = AlertState.NORMAL ∨
        (CheckAlert cd rule now inst v).1.state = AlertState.BREACHED) →
      ((inst.state = AlertState.NORMAL ∨ inst.state = AlertState.BREACHED) ∨
        cd ≤ now - inst.last_fired)) := by
  by_cases hb : thresholdBreached rule.condition v rule.threshold = true
  all_goals by_cases hd : rule.duration_seconds ≤ now - inst.breach_start
  all_goals by_cases hc : now - inst.last_fired < cd
  all_goals cases hstate : inst.state
  all_goals simp_all [CheckAlert, IsInCooldown, hstate]
  all_goals split <;> simp_all <;> omega

/-! ### Lemmas about evaluation runs -/

theorem runSteps_cons (cd : Int) (rule : AlertRule) (inst : AlertInstance)
    (t : Int) (v : Rat) (rest : List (Int × Rat)) :
    runSteps cd rule inst ((t, v) :: rest) =
      { time := t, value := v, pre := inst, post := (CheckAlert cd rule t inst v).1,
        fired := (CheckAlert cd rule t inst v).2 } ::
        runSteps cd rule (CheckAlert cd rule t inst v).1 rest := rfl

theorem fireTimesFrom_cons (cd : Int) (rule : AlertRule) (inst : AlertInstance)
    (t : Int) (v : Rat) (rest : List (Int × Rat)) :
    fireTimesFrom cd rule inst ((t, v) :: rest) =
      (if (CheckAlert cd rule t inst v).2 = true then [t] else []) ++
        fireTimesFrom cd rule (CheckAlert cd rule t inst v).1 rest := by
  by_cases hf : (CheckAlert cd rule t inst v).2 = true <;>
    simp [fireTimesFrom, runSteps_cons, List.filter_cons, hf]

theorem runSteps_step_spec (cd : Int) (rule : AlertRule) :
    ∀ (trace : List (Int × Rat)) (inst : AlertInstance) (s : EvalStep),
      s ∈ runSteps cd rule inst trace →
      s.post = (CheckAlert cd rule s.time s.pre s.value).1 ∧
      s.fired = (CheckAlert cd rule s.time s.pre s.value).2 := by
  intro trace
  induction trace with
  | nil => intro inst s h; simp [runSteps] at h
  | cons e rest ih =>
    obtain ⟨t, v⟩ := e
    intro inst s h
    rw [runSteps_cons] at h
    rcases List.mem_cons.mp h with rfl | h'
    · exact ⟨rfl, rfl⟩
    · exact ih _ s h'

theorem breach_chain (cd : Int) (rule : AlertRule) :
    ∀ (trace : List (Int × Rat)) (inst : AlertInstance)
      (pre : List EvalStep) (s : EvalStep) (post : List EvalStep),
      runSteps cd rule inst trace = pre ++ s :: post →
      s.pre.state = AlertState.BREACHED →
      (∃ p1 sj p2, pre = p1 ++ sj :: p2 ∧
        sj.pre.state = AlertState.NORMAL ∧
        sj.post.state = AlertState.BREACHED ∧
        sj.time = s.pre.breach_start ∧
        thresholdBreached rule.condition sj.value rule.threshold = true ∧
        (∀ x ∈ p2, thresholdBreached rule.condition x.value rule.threshold = true)) ∨
      (inst.state = AlertState.BREACHED ∧ inst.breach_start = s.pre.breach_start ∧
        (∀ x ∈ pre, thresholdBreached rule.condition x.value rule.threshold = true)) := by
  intro trace
  induction trace with
  | nil => intro inst pre s post h _; simp [runSteps] at h
  | cons e rest ih =>
    obtain ⟨t, v⟩ := e
    intro inst pre s post h hs
    rw [runSteps_cons] at h
    cases pre with
    | nil =>
      rw [List.nil_append] at h
      injection h with h1 _
      subst h1
      exact Or.inr ⟨hs, rfl, by simp⟩
    | cons st0 pre' =>
      rw [List.cons_append] at h
      injection h with h1 h2
      rcases ih _ pre' s post h2 hs with
        ⟨p1, sj, p2, hdec, hn, hb2, ht, hv, hall⟩ | ⟨hB, hbs, hall⟩
      · exact Or.inl ⟨st0 :: p1, sj, p2, by simp [hdec], hn, hb2, ht, hv, hall⟩
      · obtain ⟨hvB, hcase⟩ := CheckAlert_post_breached hB
        rcases hcase with ⟨hN, hbs'⟩ | ⟨hB', hbs'⟩
        · refine Or.inl ⟨[], st0, pre', by simp, ?_, ?_, ?_, ?_, hall⟩
          · rw [← h1]; exact hN
          · rw [← h1]; exact hB
          · rw [← h1]
            show t = s.pre.breach_start
            rw [← hbs, hbs']
          · rw [← h1]
            exact hvB
        · refine Or.inr ⟨hB', by rw [← hbs, hbs'], ?_⟩
          intro x hx
          rcases List.mem_cons.mp hx with rfl | hx'
          · rw [← h1]
            exact hvB
          · exact hall x hx'

/-- C1: a fire event emitted at evaluation time t requires that the rule
entered BREACHED at an evaluation no later than t minus the hold duration,
and that every value evaluated for the rule from that entry up to and
including the firing evaluation satisfied the comparator. -/
theorem alert_fire_requires_hold_window (cd : Int) (rule : AlertRule)
    (trace : List (Int × Rat)) (pre : List EvalStep) (s : EvalStep)
    (post : List EvalStep)
    (hrun : runSteps cd rule defaultInstance trace = pre ++ s :: post)
    (hf : s.fired = true) :
    ∃ p1 sj p2, pre = p1 ++ sj :: p2 ∧
      sj.time + rule.duration_seconds ≤ s.time ∧
      sj.pre.state = AlertState.NORMAL ∧
      sj.post.state = AlertState.BREACHED ∧
      thresholdBreached rule.condition sj.value rule.threshold = true ∧
      (∀ x ∈ p2, thresholdBreached rule.condition x.value rule.threshold = true) ∧
      thresholdBreached rule.condition s.value rule.threshold = true := by
  have hmem : s ∈ runSteps cd rule defaultInstance trace := by
    rw [hrun]
    exact List.mem_append_right _ (List.mem_cons_self _ _)
  obtain ⟨_, hfired⟩ := runSteps_step_spec cd rule trace defaultInstance s hmem
  rw [hfired] at hf
  obtain ⟨hB, hdur, hbv, _⟩ := CheckAlert_fired hf
  rcases breach_chain cd rule trace defaultInstance pre s post hrun hB with
    ⟨p1, sj, p2, hdec, hn, hb2, ht, hv, hall⟩ | ⟨hd, _, _⟩
  · exact ⟨p1, sj, p2, hdec, by omega, hn, hb2, hv, hall, hbv⟩
  · exact absurd hd (by simp [defaultInstance])

/-- Witness for C1 on scenario S2: values 90 at t = 0, 1, 2 under rule
(ABOVE 80, hold 2) fire at t = 2. -/
theorem alert_fire_requires_hold_window_witness :
    ∃ p1 sj p2, [stepB0, stepB1] = p1 ++ sj :: p2 ∧
      sj.time + ruleAbove80hold2.duration_seconds ≤ stepFire.time ∧
      sj.pre.state = AlertState.NORMAL ∧
      sj.post.state = AlertState.BREACHED ∧
      thresholdBreached ruleAbove80hold2.condition sj.value ruleAbove80hold2.threshold = true ∧
      (∀ x ∈ p2,
        thresholdBreached ruleAbove80hold2.condition x.value ruleAbove80hold2.threshold = true) ∧
      thresholdBreached ruleAbove80hold2.condition stepFire.value ruleAbove80hold2.threshold
        = true :=
  alert_fire_requires_hold_window 10 ruleAbove80hold2 [(0, 90), (1, 90), (2, 90)]
    [stepB0, stepB1] stepFire [] (by decide) (by decide)

theorem fire_chain (cd : Int) (rule : AlertRule) :
    ∀ (trace : List (Int × Rat)) (inst : AlertInstance) (t0 : Int),
      List.Chain' (· ≤ ·) (t0 :: trace.map Prod.fst) →
      List.Chain' (fun a b => a + cd ≤ b) (fireTimesFrom cd rule inst trace) ∧
        (cooldownSafe cd inst t0 →
          List.Chain' (fun a b => a + cd ≤ b)
            (inst.last_fired :: fireTimesFrom cd rule inst trace)) := by
  intro trace
  induction trace with
  | nil =>
    intro inst t0 _
    simp [fireTimesFrom, runSteps]
  | cons e rest ih =>
    obtain ⟨t, v⟩ := e
    intro inst t0 hchain
    simp only [List.map_cons] at hchain
    obtain ⟨ht0t, hchain'⟩ := List.chain'_cons.mp hchain
    rw [fireTimesFrom_cons]
    by_cases hf : (CheckAlert cd rule t inst v).2 = true
    · obtain ⟨hB, _, _, hpost⟩ := CheckAlert_fired hf
      have hsafe' : cooldownSafe cd (CheckAlert cd rule t inst v).1 t := by
        rw [hpost]
        intro hss
        simp at hss
      have hchainT : List.Chain' (fun a b => a + cd ≤ b)
          (t :: fireTimesFrom cd rule (CheckAlert cd rule t inst v).1 rest) := by
        have hIH2 := (ih (CheckAlert cd rule t inst v).1 t hchain').2 hsafe'
        have hlf2 : (CheckAlert cd rule t inst v).1.last_fired = t := by rw [hpost]
        rw [hlf2] at hIH2
        exact hIH2
      refine ⟨by simpa [hf] using hchainT, fun hsafe => ?_⟩
      have hlf : inst.last_fired + cd ≤ t := le_trans (hsafe (Or.inr hB)) ht0t
      have hgoal : List.Chain' (fun a b => a + cd ≤ b)
          (inst.last_fired :: t ::
            fireTimesFrom cd rule (CheckAlert cd rule t inst v).1 rest) :=
        List.chain'_cons.mpr ⟨hlf, hchainT⟩
      simpa [hf] using hgoal
    · have hf' : (CheckAlert cd rule t inst v).2 = false := by
        cases hb2 : (CheckAlert cd rule t inst v).2
        · rfl
        · exact absurd hb2 hf
      obtain ⟨hlf_eq, hstate_imp⟩ := CheckAlert_not_fired_spec hf'
      have hIH := ih (CheckAlert cd rule t inst v).1 t hchain'
      refine ⟨by simpa [hf'] using hIH.1, fun hsafe => ?_⟩
      have hsafe' : cooldownSafe cd (CheckAlert cd rule t inst v).1 t := by
        intro hss
        rw [hlf_eq]
        rcases hstate_imp hss with hpre | helapsed
        · have := hsafe hpre
          omega
        · omega
      have hIH2 := hIH.2 hsafe'
      rw [hlf_eq] at hIH2
      simpa [hf'] using hIH2

/-- C2: successive fire emissions of one rule are always at least the global
cooldown apart; in particular while now minus the previous fire time is
below the cooldown no notification is emitted, even across a return to
NORMAL and a fresh breach (within the cooldown the evaluation early-returns,
so the rule cannot even leave FIRING, let alone re-fire). -/
theorem alert_cooldown_separates_fires (cd : Int) (rule : AlertRule)
    (trace : List (Int × Rat)) (hcd : 0 ≤ cd)
    (hmono : List.Chain' (· ≤ ·) (trace.map Prod.fst)) :
    List.Pairwise (fun a b => a + cd ≤ b) (fireTimes cd rule trace) := by
  haveI : IsTrans Int (fun a b => a + cd ≤ b) :=
    ⟨fun a b c h1 h2 => by omega⟩
  rw [← List.chain'_iff_pairwise]
  cases trace with
  | nil => simp [fireTimes, fireTimesFrom, runSteps]
  | cons e rest =>
    obtain ⟨t, v⟩ := e
    have hchain : List.Chain' (· ≤ ·) (t :: ((t, v) :: rest).map Prod.fst) := by
      simp only [List.map_cons]
      exact List.chain'_cons.mpr ⟨le_refl t, by simpa using hmono⟩
    exact (fire_chain cd rule ((t, v) :: rest) defaultInstance t hchain).1

/-- Witness for C2 on the S3 scenario (cooldown 10): fires at t = 2 and
t = 16 are at least 10 apart. -/
theorem alert_cooldown_separates_fires_witness :
    List.Pairwise (fun a b => a + 10 ≤ b)
      (fireTimes 10 ruleAbove80hold2
        [(0, 90), (1, 90), (2, 90), (13, 50), (14, 90), (16, 90)]) :=
  alert_cooldown_separates_fires 10 ruleAbove80hold2
    [(0, 90), (1, 90), (2, 90), (13, 50), (14, 90), (16, 90)]
    (by decide) (by norm_num [List.chain'_cons])

/-- C7 counterexample: a FIRING rule evaluated one second after its fire
event (cooldown 10) with a value that no longer satisfies the comparator
stays FIRING: the cooldown early-return skips the reset to NORMAL. -/
theorem firing_not_reset_within_cooldown_counterexample :
    firingInst.state = AlertState.FIRING ∧
    thresholdBreached ruleAbove80hold2.condition 50 ruleAbove80hold2.threshold = false ∧
    (102 : Int) - firingInst.last_fired < 10 ∧
    (CheckAlert 10 ruleAbove80hold2 102 firingInst 50).1.state ≠ AlertState.NORMAL ∧
    (CheckAlert 10 ruleAbove80hold2 102 firingInst 50).1.state = AlertState.FIRING := by
  decide

/-- C7 (amended): a FIRING rule whose evaluated value no longer satisfies the
comparator transitions to NORMAL only when the global cooldown since
last_fired has elapsed; while still within the cooldown the evaluation
early-returns and the rule remains FIRING (only current_value is updated). -/
theorem firing_to_normal_iff_cooldown_elapsed (cd : Int) (rule : AlertRule)
    (inst : AlertInstance) (now : Int) (v : Rat)
    (hst : inst.state = AlertState.FIRING)
    (hb : thresholdBreached rule.condition v rule.threshold = false) :
    (cd ≤ now - inst.last_fired →
      (CheckAlert cd rule now inst v).1.state = AlertState.NORMAL) ∧
    (now - inst.last_fired < cd →
      (CheckAlert cd rule now inst v).1 = { inst with current_value := v }) := by
  constructor <;> intro hc
  · have hnc : ¬(now - inst.last_fired < cd) := by omega
    simp [CheckAlert, IsInCooldown, hst, hb, hnc]
  · simp [CheckAlert, IsInCooldown, hst, hb, hc]

/-- Witness for the amended C7: after the cooldown the drop to 50 resets the
rule to NORMAL; inside the cooldown the same drop leaves it FIRING. -/
theorem firing_to_normal_iff_cooldown_elapsed_witness :
    (CheckAlert 10 ruleAbove80hold2 112 firingInst 50).1.state = AlertState.NORMAL ∧
    (CheckAlert 10 ruleAbove80hold2 102 firingInst 50).1 =
      { firingInst with current_value := 50 } :=
  ⟨(firing_to_normal_iff_cooldown_elapsed 10 ruleAbove80hold2 firingInst 112 50
      rfl (by decide)).1 (by decide),
    (firing_to_normal_iff_cooldown_elapsed 10 ruleAbove80hold2 firingInst 102 50
      rfl (by decide)).2 (by decide)⟩

/-- C8 counterexample: with hold 0, the evaluation at which the comparator
first becomes satisfied (from NORMAL) does not emit the fire event: it only
moves the rule to BREACHED, and a one-event trace produces no fire at all. -/
theorem hold0_no_fire_on_first_breach_counterexample :
    ruleAbove80hold0.duration_seconds = 0 ∧
    defaultInstance.state = AlertState.NORMAL ∧
    thresholdBreached ruleAbove80hold0.condition 90 ruleAbove80hold0.threshold = true ∧
    (CheckAlert 10 ruleAbove80hold0 100 defaultInstance 90).2 = false ∧
    (CheckAlert 10 ruleAbove80hold0 100 defaultInstance 90).1.state
      = AlertState.BREACHED ∧
    fireTimes 10 ruleAbove80hold0 [(100, 90)] = [] := by
  decide

/-- C8 (amended): with hold 0 the first breaching evaluation from NORMAL
never fires and only enters BREACHED; the fire event is emitted at the next
breaching evaluation, which may carry the same timestamp. -/
theorem hold0_fires_on_second_breaching_tick (cd : Int) (rule : AlertRule)
    (inst : AlertInstance) (t t' : Int) (v v' : Rat)
    (hdur : rule.duration_seconds = 0)
    (hst : inst.state = AlertState.NORMAL)
    (hb : thresholdBreached rule.condition v rule.threshold = true)
    (hb' : thresholdBreached rule.condition v' rule.threshold = true)
    (hle : t ≤ t') :
    (CheckAlert cd rule t inst v).2 = false ∧
    (CheckAlert cd rule t inst v).1.state = AlertState.BREACHED ∧
    (CheckAlert cd rule t' (CheckAlert cd rule t inst v).1 v').2 = true := by
  have h1 : (CheckAlert cd rule t inst v).1 =
      { inst with state := AlertState.BREACHED, breach_start := t, current_value := v } := by
    simp [CheckAlert, IsInCooldown, hst, hb]
  refine ⟨?_, by rw [h1], ?_⟩
  · simp [CheckAlert, IsInCooldown, hst, hb]
  · have hcond : rule.duration_seconds ≤ t' - t := by omega
    rw [h1]
    simp [CheckAlert, IsInCooldown, hb', hcond]

/-- Witness for the amended C8: hold 0, breach at t = 100, second breaching
evaluation at the same second fires. -/
theorem hold0_fires_on_second_breaching_tick_witness :
    (CheckAlert 10 ruleAbove80hold0 100 defaultInstance 90).2 = false ∧
    (CheckAlert 10 ruleAbove80hold0 100 defaultInstance 90).1.state
      = AlertState.BREACHED ∧
    (CheckAlert 10 ruleAbove80hold0 100
      (CheckAlert 10 ruleAbove80hold0 100 defaultInstance 90).1 90).2 = true :=
  hold0_fires_on_second_breaching_tick 10 ruleAbove80hold0 defaultInstance
    100 100 90 90 rfl rfl (by decide) (by decide) (by decide)

/-! ### Store batch lemmas -/

theorem FlushBatch_batch_le (st : StoreState) (nowMs : Int) (ok : Bool) :
    ((FlushBatch st nowMs ok).1).batch.length ≤ st.batch.length := by
  unfold FlushBatch
  split_ifs <;> simp

theorem AddToBatch_batch_le (cfg : StorageConfig) (st : StoreState) (m : StoredMetric)
    (nowMs : Int) (ok : Bool) (h : st.batch.length ≤ MAX_BUFFER_SIZE) :
    ((AddToBatch cfg st m nowMs ok).1).batch.length ≤ MAX_BUFFER_SIZE := by
  simp only [AddToBatch]
  split_ifs with h1 h2
  · exact h
  · have hle := FlushBatch_batch_le { st with batch := st.batch ++ [m] } nowMs ok
    simp only [List.length_append, List.length_cons, List.length_nil] at hle
    omega
  · simp only [List.length_append, List.length_cons, List.length_nil]
    omega

theorem writeMetrics_state (cfg : StorageConfig) (nowMs : Int) (ok : Bool) :
    ∀ (points : List StoredMetric) (st : StoreState) (b : Bool),
      (points.foldl
        (fun acc m =>
          let r := AddToBatch cfg acc.1 m nowMs ok
          (r.1, acc.2 && r.2))
        (st, b)).1 =
      points.foldl (fun s m => (AddToBatch cfg s m nowMs ok).1) st := by
  intro points
  induction points with
  | nil => intro st b; rfl
  | cons p rest ih =>
    intro st b
    simp only [List.foldl_cons]
    exact ih _ _

theorem foldl_AddToBatch_batch_le (cfg : StorageConfig) (nowMs : Int) (ok : Bool) :
    ∀ (points : List StoredMetric) (st : StoreState),
      st.batch.length ≤ MAX_BUFFER_SIZE →
      (points.foldl (fun s m => (AddToBatch cfg s m nowMs ok).1) st).batch.length ≤
        MAX_BUFFER_SIZE := by
  intro points
  induction points with
  | nil => intro st h; exact h
  | cons p rest ih =>
    intro st h
    simp only [List.foldl_cons]
    exact ih _ (AddToBatch_batch_le cfg st p nowMs ok h)

theorem runOps_batch_le (cfg : StorageConfig) :
    ∀ (ops : List StoreOp) (st : StoreState),
      st.batch.length ≤ MAX_BUFFER_SIZE →
      (runOps cfg st ops).batch.length ≤ MAX_BUFFER_SIZE := by
  intro ops
  induction ops with
  | nil => intro st h; exact h
  | cons op rest ih =>
    intro st h
    cases op with
    | write points nowMs ok =>
      refine ih _ ?_
      show ((writeMetrics cfg st points nowMs ok).1).batch.length ≤ MAX_BUFFER_SIZE
      rw [writeMetrics, writeMetrics_state]
      exact foldl_AddToBatch_batch_le cfg nowMs ok points st h
    | flush nowMs ok =>
      refine ih _ ?_
      exact le_trans (FlushBatch_batch_le st nowMs ok) h

/-- C6: across every legal interleaving of writes and flushes started from a
fresh store the in-memory batch never exceeds MAX_BUFFER_SIZE (10,000)
points, and an append attempted on a batch already at the cap returns
failure and leaves the state untouched. -/
theorem batch_never_exceeds_cap (cfg : StorageConfig) (ops : List StoreOp)
    (st : StoreState) (m : StoredMetric) (nowMs : Int) (ok : Bool)
    (hfull : MAX_BUFFER_SIZE ≤ st.batch.length) :
    (runOps cfg initState ops).batch.length ≤ MAX_BUFFER_SIZE ∧
    AddToBatch cfg st m nowMs ok = (st, false) := by
  constructor
  · exact runOps_batch_le cfg ops initState (by simp [initState])
  · unfold AddToBatch
    rw [if_pos hfull]

/-- Witness for C6: a one-write interleaving stays within the cap, and an
append on a batch of exactly 10,000 points is refused without mutation. -/
theorem batch_never_exceeds_cap_witness :
    (runOps cfgDefault initState [StoreOp.write [samplePoint] 0 true]).batch.length ≤
      MAX_BUFFER_SIZE ∧
    AddToBatch cfgDefault fullBatchState samplePoint 0 true = (fullBatchState, false) :=
  batch_never_exceeds_cap cfgDefault [StoreOp.write [samplePoint] 0 true]
    fullBatchState samplePoint 0 true
    (by simp [fullBatchState])

/-- C10: when an append triggers the auto-flush and the flush transaction
fails, AddToBatch returns false but the appended point is retained in the
batch; in general a false return either is the BufferFull refusal (state
untouched, point dropped) or leaves the batch holding all previous points
plus the new one. -/
theorem write_failure_never_drops_points (cfg : StorageConfig) (st : StoreState)
    (m : StoredMetric) (nowMs : Int) :
    (st.batch.length < MAX_BUFFER_SIZE →
      (cfg.batch_size ≤ st.batch.length + 1 ∨
        cfg.flush_interval_ms ≤ nowMs - st.lastFlushMs) →
      AddToBatch cfg st m nowMs false = ({ st with batch := st.batch ++ [m] }, false)) ∧
    (∀ ok, (AddToBatch cfg st m nowMs ok).2 = false →
      (MAX_BUFFER_SIZE ≤ st.batch.length ∧ (AddToBatch cfg st m nowMs ok).1 = st) ∨
      ((AddToBatch cfg st m nowMs ok).1).batch = st.batch ++ [m]) := by
  constructor
  · intro hlt htrig
    have hnf : ¬(MAX_BUFFER_SIZE ≤ st.batch.length) := by omega
    simp [AddToBatch, FlushBatch, hnf, htrig]
  · intro ok h2
    by_cases hfull : MAX_BUFFER_SIZE ≤ st.batch.length
    · refine Or.inl ⟨hfull, ?_⟩
      simp [AddToBatch, hfull]
    · right
      by_cases htrig : cfg.batch_size ≤ st.batch.length + 1 ∨
          cfg.flush_interval_ms ≤ nowMs - st.lastFlushMs
      · cases ok
        · simp [AddToBatch, FlushBatch, hfull, htrig]
        · exfalso
          simp [AddToBatch, FlushBatch, hfull, htrig] at h2
      · exfalso
        simp [AddToBatch, hfull, htrig] at h2

/-- Witness for C10: with batch size 1 the first append auto-flushes; a
failing transaction yields a false return with the point still batched. -/
theorem write_failure_never_drops_points_witness :
    AddToBatch cfgBatch1 initState samplePoint 0 false =
      ({ initState with batch := initState.batch ++ [samplePoint] }, false) ∧
    ((MAX_BUFFER_SIZE ≤ initState.batch.length ∧
        (AddToBatch cfgBatch1 initState samplePoint 0 false).1 = initState) ∨
      ((AddToBatch cfgBatch1 initState samplePoint 0 false).1).batch =
        initState.batch ++ [samplePoint]) :=
  ⟨(write_failure_never_drops_points cfgBatch1 initState samplePoint 0).1
      (by decide) (by decide),
    (write_failure_never_drops_points cfgBatch1 initState samplePoint 0).2 false
      (by decide)⟩

/-! ### Process persistence lemmas -/

theorem processLoopPoints_eq_take (ts : Int) (host : String) :
    ∀ (l : List ProcessInfo) (count : Nat), count ≤ MAX_PROCESSES →
      processLoopPoints ts host count l =
        (l.take (MAX_PROCESSES - count)).flatMap (procEntry ts host) := by
  intro l
  induction l with
  | nil => intro count _; simp [processLoopPoints]
  | cons p rest ih =>
    intro count h
    unfold processLoopPoints
    by_cases hc : MAX_PROCESSES ≤ count
    · have h0 : MAX_PROCESSES - count = 0 := by omega
      simp [hc, h0]
    · have hsub : MAX_PROCESSES - count = (MAX_PROCESSES - (count + 1)) + 1 := by omega
      rw [if_neg hc, ih (count + 1) (by omega), hsub]
      simp [List.take_succ_cons]

/-- C9 counterexample: for a 21-process list whose unique CPU-heaviest
process is the last one (cpu_percent 20), the persisted per-process points
contain no cpu_percent sample with value 20, so the persisted set is not the
top-20 by CPU (it is the first 20 entries in list order). -/
theorem top_cpu_process_not_persisted_counterexample :
    (∃ p ∈ procs21, p.cpu_percent = 20) ∧
    (∀ p ∈ procs21, p.cpu_percent ≤ 20) ∧
    procs21.length = 21 ∧
    (∀ x ∈ processPoints 5 "h" procs21,
      ¬(x.metric_type = "process.cpu_percent" ∧ x.value = 20)) := by
  decide

/-- C9 (amended): WriteProcessMetrics persists per-process points for exactly
the first MAX_PROCESSES (20) entries of the list, in list order, plus one
process.count point; the number of processes covered is min(length, 20) and
in particular never exceeds 20. -/
theorem process_points_cover_first20 (ts : Int) (host : String)
    (l : List ProcessInfo) :
    processPoints ts host l =
      (l.take MAX_PROCESSES).flatMap (procEntry ts host) ++
        [{ timestamp := ts, metric_type := "process.count", host := host,
           tags := "", value := (l.length : Rat) }] ∧
    ((processPoints ts host l).filter
        (fun x => x.metric_type == "process.cpu_percent")).length =
      min l.length MAX_PROCESSES := by
  have h1 : processLoopPoints ts host 0 l =
      (l.take MAX_PROCESSES).flatMap (procEntry ts host) := by
    simpa using processLoopPoints_eq_take ts host l 0 (by omega)
  constructor
  · simp [processPoints, h1]
  · rw [processPoints, h1, List.filter_append]
    have hcount : List.filter
        (fun x : StoredMetric => x.metric_type == "process.cpu_percent")
        [{ timestamp := ts, metric_type := "process.count", host := host,
           tags := "", value := (l.length : Rat) }] = [] := by
      simp [List.filter_cons]
    rw [hcount, List.append_nil]
    have hgen : ∀ ps : List ProcessInfo,
        ((ps.flatMap (procEntry ts host)).filter
          (fun x => x.metric_type == "process.cpu_percent")).length = ps.length := by
      intro ps
      induction ps with
      | nil => simp
      | cons p rest ihp =>
        simp [List.filter_append, procEntry, List.filter_cons, ihp]
    rw [hgen, List.length_take]
    omega

/-! ### Commit/flush bookkeeping lemmas -/

theorem committed_FlushBatch (st : StoreState) (nowMs : Int) (ok : Bool) :
    committed ((FlushBatch st nowMs ok).1) = committed st := by
  unfold FlushBatch
  split_ifs with h1 h2
  · rfl
  · simp [committed]
  · rfl

theorem FlushBatch_true (st : StoreState) (nowMs : Int) :
    ((FlushBatch st nowMs true).1).batch = [] ∧
    ((FlushBatch st nowMs true).1).db = committed st := by
  unfold FlushBatch
  split_ifs with h1 h2
  · rw [List.isEmpty_iff] at h1
    simp [committed, h1]
  · simp [committed]
  · exact absurd rfl h2

theorem committed_AddToBatch (cfg : StorageConfig) (st : StoreState)
    (m : StoredMetric) (nowMs : Int) (ok : Bool)
    (h : st.batch.length < MAX_BUFFER_SIZE) :
    committed ((AddToBatch cfg st m nowMs ok).1) = upsert m (committed st) := by
  have hnf : ¬(MAX_BUFFER_SIZE ≤ st.batch.length) := by omega
  have hmid : committed { st with batch := st.batch ++ [m] } =
      upsert m (committed st) := by
    simp [committed]
  simp only [AddToBatch, if_neg hnf]
  split_ifs with h2
  · rw [committed_FlushBatch, hmid]
  · exact hmid

theorem committed_writePoints (cfg : StorageConfig) (nowMs : Int) (ok : Bool) :
    ∀ (points : List StoredMetric) (st : StoreState),
      st.batch.length + points.length ≤ MAX_BUFFER_SIZE →
      committed (points.foldl (fun s m => (AddToBatch cfg s m nowMs ok).1) st) =
        points.foldl (fun d m => upsert m d) (committed st) ∧
      (points.foldl (fun s m => (AddToBatch cfg s m nowMs ok).1) st).batch.length ≤
        st.batch.length + points.length := by
  intro points
  induction points with
  | nil => intro st _; exact ⟨rfl, by simp⟩
  | cons p rest ih =>
    intro st h
    simp only [List.foldl_cons, List.length_cons]
    have hlt : st.batch.length < MAX_BUFFER_SIZE := by
      simp only [List.length_cons] at h
      omega
    have hstep_batch : ((AddToBatch cfg st p nowMs ok).1).batch.length ≤
        st.batch.length + 1 := by
      simp only [AddToBatch, if_neg (by omega : ¬(MAX_BUFFER_SIZE ≤ st.batch.length))]
      split_ifs with h2
      · have := FlushBatch_batch_le { st with batch := st.batch ++ [p] } nowMs ok
        simp only [List.length_append, List.length_cons, List.length_nil] at this
        omega
      · simp
    obtain ⟨ihc, ihb⟩ := ih ((AddToBatch cfg st p nowMs ok).1)
      (by simp only [List.length_cons] at h; omega)
    refine ⟨?_, by omega⟩
    rw [ihc, committed_AddToBatch cfg st p nowMs ok hlt]

theorem committed_runOps (cfg : StorageConfig) :
    ∀ (ops : List StoreOp) (st : StoreState),
      st.batch.length + (writtenPoints ops).length ≤ MAX_BUFFER_SIZE →
      committed (runOps cfg st ops) =
        (writtenPoints ops).foldl (fun d m => upsert m d) (committed st) ∧
      (runOps cfg st ops).batch.length ≤
        st.batch.length + (writtenPoints ops).length := by
  intro ops
  induction ops with
  | nil => intro st _; exact ⟨rfl, by simp [runOps, writtenPoints]⟩
  | cons op rest ih =>
    intro st h
    cases op with
    | write points nowMs ok =>
      have hw : writtenPoints (StoreOp.write points nowMs ok :: rest) =
          points ++ writtenPoints rest := rfl
      rw [hw] at h ⊢
      simp only [List.length_append] at h ⊢
      have hrun : runOps cfg st (StoreOp.write points nowMs ok :: rest) =
          runOps cfg ((writeMetrics cfg st points nowMs ok).1) rest := rfl
      rw [hrun]
      have hws : (writeMetrics cfg st points nowMs ok).1 =
          points.foldl (fun s m => (AddToBatch cfg s m nowMs ok).1) st := by
        rw [writeMetrics, writeMetrics_state]
      obtain ⟨hc1, hb1⟩ := committed_writePoints cfg nowMs ok points st (by omega)
      rw [hws]
      obtain ⟨hc2, hb2⟩ := ih (points.foldl (fun s m => (AddToBatch cfg s m nowMs ok).1) st)
        (by omega)
      rw [hc2, hc1]
      exact ⟨by rw [List.foldl_append], by omega⟩
    | flush nowMs ok =>
      have hw : writtenPoints (StoreOp.flush nowMs ok :: rest) = writtenPoints rest := rfl
      rw [hw] at h ⊢
      have hrun : runOps cfg st (StoreOp.flush nowMs ok :: rest) =
          runOps cfg ((Flush st nowMs ok).1) rest := rfl
      rw [hrun]
      obtain ⟨hc2, hb2⟩ := ih ((Flush st nowMs ok).1)
        (by
          have := FlushBatch_batch_le st nowMs ok
          show ((FlushBatch st nowMs ok).1).batch.length + _ ≤ _
          omega)
      refine ⟨?_, ?_⟩
      · rw [hc2]
        show (writtenPoints rest).foldl (fun d m => upsert m d)
            (committed ((FlushBatch st nowMs ok).1)) = _
        rw [committed_FlushBatch]
      · have := FlushBatch_batch_le st nowMs ok
        have hb2' : ((FlushBatch st nowMs ok).1).batch.length +
            (writtenPoints rest).length ≥ (runOps cfg ((Flush st nowMs ok).1) rest).batch.length := hb2
        omega

/-! ### Query lemmas -/

theorem mem_insertByTsDesc {x m : StoredMetric} {l : List StoredMetric} :
    x ∈ insertByTsDesc m l ↔ x = m ∨ x ∈ l := by
  induction l with
  | nil => simp [insertByTsDesc]
  | cons y ys ih =>
    unfold insertByTsDesc
    split_ifs with h
    · simp [List.mem_cons]
    · simp only [List.mem_cons, ih]
      tauto

theorem mem_sortByTsDesc {x : StoredMetric} {l : List StoredMetric} :
    x ∈ sortByTsDesc l ↔ x ∈ l := by
  induction l with
  | nil => simp [sortByTsDesc]
  | cons y ys ih => simp [sortByTsDesc, mem_insertByTsDesc, ih]

theorem pairwise_insertByTsDesc {m : StoredMetric} {l : List StoredMetric}
    (h : List.Pairwise newestFirst l) :
    List.Pairwise newestFirst (insertByTsDesc m l) := by
  induction l with
  | nil => simp [insertByTsDesc]
  | cons y ys ih =>
    obtain ⟨hy, hys⟩ := List.pairwise_cons.mp h
    unfold insertByTsDesc
    split_ifs with hle
    · refine List.pairwise_cons.mpr ⟨?_, h⟩
      intro b hb
      rcases List.mem_cons.mp hb with rfl | hb'
      · exact hle
      · have := hy b hb'
        show b.timestamp ≤ m.timestamp
        unfold newestFirst at this
        omega
    · refine List.pairwise_cons.mpr ⟨?_, ih hys⟩
      intro b hb
      rcases mem_insertByTsDesc.mp hb with rfl | hb'
      · show b.timestamp ≤ y.timestamp
        omega
      · exact hy b hb'

theorem pairwise_sortByTsDesc (l : List StoredMetric) :
    List.Pairwise newestFirst (sortByTsDesc l) := by
  induction l with
  | nil => simp [sortByTsDesc]
  | cons y ys ih => exact pairwise_insertByTsDesc ih

theorem mem_QueryRange_unlimited {db : List StoredMetric} {mt : String}
    {t0 t1 : Int} {x : StoredMetric} :
    x ∈ QueryRange db mt t0 t1 0 ↔
      x ∈ db ∧ x.metric_type = mt ∧ t0 ≤ x.timestamp ∧ x.timestamp ≤ t1 := by
  simp [QueryRange, mem_sortByTsDesc, List.mem_filter, and_assoc]

theorem QueryRange_sorted (db : List StoredMetric) (mt : String)
    (t0 t1 lim : Int) :
    List.Pairwise newestFirst (QueryRange db mt t0 t1 lim) := by
  unfold QueryRange
  split_ifs with h
  · exact (pairwise_sortByTsDesc _).sublist (List.take_sublist _ _)
  · exact pairwise_sortByTsDesc _

theorem QueryRange_take (db : List StoredMetric) (mt : String)
    (t0 t1 : Int) {lim : Int} (h : 0 < lim) :
    QueryRange db mt t0 t1 lim = (QueryRange db mt t0 t1 0).take lim.toNat := by
  unfold QueryRange
  rw [if_pos h, if_neg (lt_irrefl 0)]

/-- C3: for any interleaving of write calls and flushes (no point exceeding
the buffer cap) closed by a successful flush, the committed table equals the
written points folded by identity-replacement, the range query returns
exactly the committed rows with the requested metric name and timestamps in
the window (so unflushed batch points, of which there are none left, are
never returned), its rows are ordered newest-first, a positive limit
truncates the unlimited result to that many rows, and limit 0 is unlimited. -/
theorem query_after_flush_returns_writes (cfg : StorageConfig) (ops : List StoreOp)
    (tf : Int) (mt : String) (t0 t1 lim : Int)
    (hcap : (writtenPoints ops).length ≤ MAX_BUFFER_SIZE) :
    ((Flush (runOps cfg initState ops) tf true).1).batch = [] ∧
    ((Flush (runOps cfg initState ops) tf true).1).db =
      (writtenPoints ops).foldl (fun d m => upsert m d) [] ∧
    (∀ x, x ∈ QueryRange ((Flush (runOps cfg initState ops) tf true).1).db mt t0 t1 0 ↔
      (x ∈ ((Flush (runOps cfg initState ops) tf true).1).db ∧ x.metric_type = mt ∧
        t0 ≤ x.timestamp ∧ x.timestamp ≤ t1)) ∧
    List.Pairwise newestFirst
      (QueryRange ((Flush (runOps cfg initState ops) tf true).1).db mt t0 t1 lim) ∧
    (0 < lim →
      QueryRange ((Flush (runOps cfg initState ops) tf true).1).db mt t0 t1 lim =
        (QueryRange ((Flush (runOps cfg initState ops) tf true).1).db mt t0 t1 0).take
          lim.toNat) := by
  obtain ⟨hrc, _⟩ := committed_runOps cfg ops initState (by simpa [initState] using hcap)
  have hcomm0 : committed initState = [] := rfl
  rw [hcomm0] at hrc
  obtain ⟨hfb, hfd⟩ := FlushBatch_true (runOps cfg initState ops) tf
  refine ⟨hfb, ?_, fun x => mem_QueryRange_unlimited, QueryRange_sorted _ _ _ _ _,
    fun hlim => QueryRange_take _ _ _ _ hlim⟩
  show ((FlushBatch (runOps cfg initState ops) tf true).1).db = _
  rw [hfd, hrc]

/-- Witness for C3: two points written in one call, flushed, then queried
over their window with limit 1 and limit 0. -/
theorem query_after_flush_returns_writes_witness :
    ((Flush (runOps cfgDefault initState
        [StoreOp.write [samplePoint, samplePoint1] 0 true]) 0 true).1).batch = [] ∧
    ((Flush (runOps cfgDefault initState
        [StoreOp.write [samplePoint, samplePoint1] 0 true]) 0 true).1).db =
      (writtenPoints [StoreOp.write [samplePoint, samplePoint1] 0 true]).foldl
        (fun d m => upsert m d) [] ∧
    (∀ x, x ∈ QueryRange ((Flush (runOps cfgDefault initState
        [StoreOp.write [samplePoint, samplePoint1] 0 true]) 0 true).1).db
        "cpu.total_usage" 0 10 0 ↔
      (x ∈ ((Flush (runOps cfgDefault initState
          [StoreOp.write [samplePoint, samplePoint1] 0 true]) 0 true).1).db ∧
        x.metric_type = "cpu.total_usage" ∧ 0 ≤ x.timestamp ∧ x.timestamp ≤ 10)) ∧
    List.Pairwise newestFirst
      (QueryRange ((Flush (runOps cfgDefault initState
        [StoreOp.write [samplePoint, samplePoint1] 0 true]) 0 true).1).db
        "cpu.total_usage" 0 10 1) ∧
    ((0 : Int) < 1 →
      QueryRange ((Flush (runOps cfgDefault initState
          [StoreOp.write [samplePoint, samplePoint1] 0 true]) 0 true).1).db
          "cpu.total_usage" 0 10 1 =
        (QueryRange ((Flush (runOps cfgDefault initState
          [StoreOp.write [samplePoint, samplePoint1] 0 true]) 0 true).1).db
          "cpu.total_usage" 0 10 0).take (1 : Int).toNat) :=
  query_after_flush_returns_writes cfgDefault
    [StoreOp.write [samplePoint, samplePoint1] 0 true] 0 "cpu.total_usage" 0 10 1
    (by decide)

/-! ### Publisher transport lemmas -/

theorem hasSub_iff (pat : List Char) :
    ∀ s : List Char, hasSub pat s = true ↔ ∃ p q, s = p ++ pat ++ q := by
  intro s
  induction s with
  | nil =>
    simp only [hasSub, List.isEmpty_iff]
    constructor
    · rintro rfl
      exact ⟨[], [], rfl⟩
    · rintro ⟨p, q, h⟩
      rcases List.append_eq_nil.mp (List.append_eq_nil.mp h.symm).1 with ⟨_, h2⟩
      exact h2
  | cons c rest ih =>
    simp only [hasSub, Bool.or_eq_true, List.isPrefixOf_iff_prefix, ih]
    constructor
    · rintro (⟨t, ht⟩ | ⟨p, q, rfl⟩)
      · exact ⟨[], t, by simpa using ht.symm⟩
      · exact ⟨c :: p, q, rfl⟩
    · rintro ⟨p, q, h⟩
      cases p with
      | nil =>
        left
        exact ⟨q, by simpa using h.symm⟩
      | cons a p' =>
        right
        rw [List.cons_append, List.cons_append] at h
        injection h with _ h2
        exact ⟨p', q, h2⟩

/-- C4 counterexample: an aggregator reply with status 204 (inside the
specified [200, 300) success window) is counted a failure by the transport,
whose success test is the literal substring "200 OK". -/
theorem status204_counted_failure_counterexample :
    specStatusSuccess 204 ∧
    SendHTTPRequest (TransportOutcome.response (statusLineFor 204 "No Content"))
      = false ∧
    (PublishBatch stats0 10
      (TransportOutcome.response (statusLineFor 204 "No Content"))).2 = false := by
  refine ⟨⟨by norm_num, by norm_num⟩, by decide, by decide⟩

/-- C4 (amended): a publish attempt is counted a success if and only if the
transport received a response whose first bytes contain the literal
substring "200 OK"; every other response (other 2xx statuses included) and
every transport error is a failure, counted in publish_failures and hence
subject to the caller's retry loop. -/
theorem publish_success_iff_200OK (outcome : TransportOutcome) (stats : Stats)
    (batchSize : Nat) :
    ((PublishBatch stats batchSize outcome).2 = true ↔
      ∃ r p q, outcome = TransportOutcome.response r ∧
        r = p ++ ("200 OK".toList) ++ q) ∧
    ((PublishBatch stats batchSize outcome).2 = false →
      (PublishBatch stats batchSize outcome).1.publish_failures =
        stats.publish_failures + 1 ∧
      (PublishBatch stats batchSize outcome).1.publish_attempts =
        stats.publish_attempts + 1) := by
  have hsend : (PublishBatch stats batchSize outcome).2 = SendHTTPRequest outcome := by
    unfold PublishBatch
    split_ifs with h <;> simp [h]
  constructor
  · rw [hsend]
    cases outcome with
    | response r =>
      simp only [SendHTTPRequest, hasSub_iff]
      constructor
      · rintro ⟨p, q, rfl⟩
        exact ⟨p ++ "200 OK".toList ++ q, p, q, rfl, rfl⟩
      · rintro ⟨r', p, q, hr, rfl⟩
        injection hr with hr
        exact ⟨p, q, hr⟩
    | invalidScheme => simp [SendHTTPRequest]
    | connectError => simp [SendHTTPRequest]
    | sendError => simp [SendHTTPRequest]
    | recvError => simp [SendHTTPRequest]
  · intro hfail
    rw [hsend] at hfail
    unfold PublishBatch
    rw [if_neg (by simp [hfail])]
    exact ⟨rfl, rfl⟩

/-- Witness for the amended C4: a connection error counts the attempt and
the failure; a response carrying "200 OK" satisfies the success criterion. -/
theorem publish_success_iff_200OK_witness :
    (PublishBatch stats0 10 TransportOutcome.connectError).1.publish_failures =
      stats0.publish_failures + 1 ∧
    (PublishBatch stats0 10 TransportOutcome.connectError).1.publish_attempts =
      stats0.publish_attempts + 1 :=
  (publish_success_iff_200OK TransportOutcome.connectError stats0 10).2 (by decide)

/-! ### Schema versioning -/

/-- C5 counterexample: a database whose recorded schema version 2 exceeds
the code's schema version 1 is opened without refusal (no migration runs);
the constructor has no version-too-new check. -/
theorem schema_too_new_still_opens_counterexample :
    (1 : Int) < 2 ∧ MetricsStorageOpen true 2 = OpenResult.ok [] := by
  decide

/-- C5 (amended): opening never fails because of the recorded schema
version: a recorded version below the code version 1 gets migration 1
applied on open, and any recorded version at or above 1 (including versions
exceeding the code's) opens with no migrations and no refusal. -/
theorem open_applies_migrations_never_refuses (recorded : Int) :
    MetricsStorageOpen true recorded ≠ OpenResult.openFailure ∧
    (recorded < 1 → MetricsStorageOpen true recorded = OpenResult.ok [1]) ∧
    (1 ≤ recorded → MetricsStorageOpen true recorded = OpenResult.ok []) := by
  unfold MetricsStorageOpen applySchemaMigrations
  refine ⟨by simp, fun h => ?_, fun h => ?_⟩
  · rw [if_pos rfl, if_pos h]
  · rw [if_pos rfl, if_neg (by omega)]

/-- Witness for the amended C5: version 0 is migrated to 1; version 2 opens
untouched. -/
theorem open_applies_migrations_never_refuses_witness :
    MetricsStorageOpen true 0 = OpenResult.ok [1] ∧
    MetricsStorageOpen true 2 = OpenResult.ok [] :=
  ⟨(open_applies_migrations_never_refuses 0).2.1 (by decide),
    (open_applies_migrations_never_refuses 2).2.2 (by decide)⟩

end Sysmon
